import Mathlib

/-!
Verification of the groundwater-tracer and CDO face-based subsystem of this
repository (src/cdo/cs_gwf_tracer.c and src/cdo/cs_cdofb_navsto.h).

Shallow embedding conventions:
- C `double`/`cs_real_t` arithmetic is idealised as exact arithmetic: `ℚ` for
  the parts that use only field operations and `min`/`max` (precipitation
  update, divergence operator, property evaluators), `ℝ` where the code calls
  `sqrt` (dispersion tensor).
- global arrays become functions from indices; in-place writes become
  `Function.update`; C loops become `List.foldl`.
- a fallible function (one that may call `bft_error`, which aborts) returns
  `Except GwfError _`.
- everything is single-rank: the `cs_interface_set_*` synchronisation calls
  (which are no-ops when `connect->interfaces[..] == NULL`) are omitted.
-/

/-! ## Precipitation / dissolution update (`_update_precipitation_vb`) -/

/-- State mutated by `_update_precipitation_vb` (cs_gwf_tracer.c, l.649-748):
`c_w` is the tracer concentration in the liquid phase per vertex (the vertex
values of the tracer equation) and `c_p` is the precipitate concentration
per (cell, local-vertex) slot (the code's `conc_precip` array indexed by the
position `j` in the cell-to-vertex adjacency, modelled as the pair
(cell id, local index)). -/
structure PrecipState where
  c_w : ℕ → ℚ
  c_p : ℕ × ℕ → ℚ

/-- Body of the loop on cell vertices in `_update_precipitation_vb`
(cs_gwf_tracer.c, l.695-715): for slot `(c, k)` with vertex
`v_id = c2v->ids[j]`, either dissolve (when `c_w_save[v_id] <= c_sat` and
`c_p[j] > 0`), precipitate (when `c_w_save[v_id] > c_sat`), or do nothing.
`c2v c` is the list of vertices of cell `c`; `conc_satura` is the per-vertex
saturation concentration; `c_w_save` is the copy of `c_w` taken before the
loops (the code's `memcpy` into `c_w_save`). -/
def precip_step (c2v : ℕ → List ℕ) (conc_satura c_w_save : ℕ → ℚ)
    (rho theta_c : ℚ) (c k : ℕ) (st : PrecipState) : PrecipState :=
  let inv_rho := 1 / rho
  let inv_theta_c := 1 / theta_c
  let v_id := (c2v c).getD k 0
  let c_sat := conc_satura v_id
  if c_w_save v_id ≤ c_sat ∧ 0 < st.c_p (c, k) then
    let c_w_max := min c_sat (c_w_save v_id + rho * inv_theta_c * st.c_p (c, k))
    { c_p := Function.update st.c_p (c, k)
        (st.c_p (c, k) - theta_c * inv_rho * (c_w_max - c_w_save v_id)),
      c_w := Function.update st.c_w v_id (max (st.c_w v_id) c_w_max) }
  else if c_sat < c_w_save v_id then
    { c_p := Function.update st.c_p (c, k)
        (st.c_p (c, k) + theta_c * inv_rho * (c_w_save v_id - c_sat)),
      c_w := Function.update st.c_w v_id c_sat }
  else st

/-- Per-soil data consumed by `_update_precipitation_vb`: the bulk density
`rho = tc->rho_bulk[soil->id]` and the soil's zone (list of cell ids,
`z->elt_ids`). -/
structure PrecipSoil where
  rho_bulk : ℚ
  zone : List ℕ

/-- The update of `c_w` and `c_p` performed by `_update_precipitation_vb`
(cs_gwf_tracer.c, l.678-719): save `c_w`, then loop on soils, on the cells of
each soil's zone, and on each cell's vertices, applying `precip_step`.
`theta` is the per-cell liquid saturation `tc->l_saturation`.  The trailing
parallel synchronisation is a no-op on a single rank, and the final
recomputation of the cell-averaged precipitate field writes a separate field
without touching `c_w`/`c_p`, so both are omitted here. -/
def update_precipitation_vb (soils : List PrecipSoil) (theta : ℕ → ℚ)
    (c2v : ℕ → List ℕ) (conc_satura : ℕ → ℚ) (st : PrecipState) : PrecipState :=
  let c_w_save := st.c_w
  soils.foldl (fun st1 soil =>
    soil.zone.foldl (fun st2 c_id =>
      (List.range ((c2v c_id).length)).foldl (fun st3 j =>
        precip_step c2v conc_satura c_w_save soil.rho_bulk (theta c_id)
          c_id j st3) st2) st1) st

/-- One (cell, local-vertex) slot of the precipitation loop nest, together
with the soil bulk density and cell saturation in scope when it is
processed. -/
structure PrecipSlot where
  rho : ℚ
  theta : ℚ
  c : ℕ
  k : ℕ
deriving DecidableEq

/-- Vertex of a slot: `c2v->ids[j]` for slot `(c, k)`. -/
def PrecipSlot.vtx (c2v : ℕ → List ℕ) (sl : PrecipSlot) : ℕ :=
  (c2v sl.c).getD sl.k 0

/-- The sequence of slots processed by the loop nest of
`_update_precipitation_vb`, in processing order. -/
def precip_slots (soils : List PrecipSoil) (theta : ℕ → ℚ)
    (c2v : ℕ → List ℕ) : List PrecipSlot :=
  soils.flatMap (fun soil =>
    soil.zone.flatMap (fun c_id =>
      (List.range ((c2v c_id).length)).map
        (fun j => ⟨soil.rho_bulk, theta c_id, c_id, j⟩)))

/-- `precip_step` applied to a packaged slot. -/
def precip_slot_step (c2v : ℕ → List ℕ) (conc_satura c_w_save : ℕ → ℚ)
    (st : PrecipState) (sl : PrecipSlot) : PrecipState :=
  precip_step c2v conc_satura c_w_save sl.rho sl.theta sl.c sl.k st

/-! ## Saturation-concentration table built by `_add_precipitation` -/

/-- Per-soil data consumed by the `conc_satura` construction in
`_add_precipitation`: the saturated concentration in the liquid phase
`c_sat = tc->conc_w_star[soil->id]` and the soil's zone. -/
structure SatSoil where
  conc_w_star : ℚ
  zone : List ℕ

/-- Min-reduction of the saturation table over the vertices of the cells of
one soil's zone (`_add_precipitation`, cs_gwf_tracer.c, l.862-880). -/
def min_reduce_soil (c2v : ℕ → List ℕ) (c_sat : ℚ) (cells : List ℕ)
    (satf : ℕ → ℚ) : ℕ → ℚ :=
  cells.foldl (fun satf c_id =>
    (c2v c_id).foldl (fun satf v_id =>
      Function.update satf v_id (min (satf v_id) c_sat)) satf) satf

/-- Construction of the per-vertex saturation table `conc_satura` by
`_add_precipitation` (cs_gwf_tracer.c, l.842-884): the soil with id 0
initialises every vertex with its `conc_w_star` (the `soil_id == 0` branch,
here the head of the soil list); every subsequent soil min-reduces over the
vertices of its own cells (the `else` branch, here the fold over the tail).
The trailing interface min-synchronisation is a no-op on a single rank.
With no soils the table is left uninitialised (modelled as the zero
function, never exercised below). -/
def build_conc_satura (c2v : ℕ → List ℕ) : List SatSoil → (ℕ → ℚ)
  | [] => fun _ => 0
  | s0 :: rest =>
      rest.foldl (fun satf s => min_reduce_soil c2v s.conc_w_star s.zone satf)
        (fun _ => s0.conc_w_star)

/-! ## Divergence operator (`cs_cdofb_navsto_divergence_vect`) -/

/-- One face of a cell-local mesh view, as read by
`cs_cdofb_navsto_divergence_vect` (cs_cdofb_navsto.h, l.119-139): the face
quantity `pfq = cm->face[f]` (measure/area and unit normal) and the
cell-local orientation sign `cm->f_sgn[f]` (a short int). -/
structure CellFace where
  meas : ℚ
  unitv : Fin 3 → ℚ
  f_sgn : ℤ

/-- Cell-local mesh view restricted to what the divergence builder reads:
the ordered list of bounding faces (`n_fc` is its length).  The cell volume
is deliberately absent: the computed vector is not divided by it. -/
structure CellMesh where
  faces : List CellFace

/-- Loop of `cs_cdofb_navsto_divergence_vect`: for each face, write the
3-vector `i_f * pfq.unitv` (with `i_f = f_sgn * meas`) into `div` at
offsets `3 f`, `3 f + 1`, `3 f + 2`; `f0` is the index of the first face of
the remaining list. -/
def div_write (f0 : ℕ) (div : ℕ → ℚ) : List CellFace → (ℕ → ℚ)
  | [] => div
  | pfq :: rest =>
      let i_f : ℚ := (pfq.f_sgn : ℚ) * pfq.meas
      div_write (f0 + 1)
        (Function.update (Function.update (Function.update div
          (3 * f0) (i_f * pfq.unitv 0))
          (3 * f0 + 1) (i_f * pfq.unitv 1))
          (3 * f0 + 2) (i_f * pfq.unitv 2)) rest

/-- `cs_cdofb_navsto_divergence_vect` (cs_cdofb_navsto.h, l.119-139):
compute the divergence vector associated to the current cell into `div`.
As the header warns, the result is NOT divided by the cell volume. -/
def cs_cdofb_navsto_divergence_vect (cm : CellMesh) (div : ℕ → ℚ) : ℕ → ℚ :=
  div_write 0 div cm.faces

/-! ## Tracer property evaluators (time and reaction coefficients) -/

/-- External soil services read by the evaluators: the global cell-to-soil
map returned by `cs_gwf_get_cell2soil` and the per-soil saturated moisture
returned by `cs_gwf_soil_get_saturated_moisture`. -/
structure SoilService where
  c2s : ℕ → ℕ
  saturated_moisture : ℕ → ℚ

/-- The fields of `cs_gwf_tracer_context_t` read by the property
evaluators: per-soil retardation term `rho_kd`, per-soil first-order
reaction rate, and the per-cell liquid saturation field. -/
structure TracerContext where
  rho_kd : ℕ → ℚ
  reaction_rate : ℕ → ℚ
  l_saturation : ℕ → ℚ

/-- The cell id evaluated at loop index `i` by the bulk evaluators:
`(elt_ids == NULL) ? i : elt_ids[i]`. -/
def bulk_cell_id (elt_ids : Option (List ℕ)) (i : ℕ) : ℕ :=
  match elt_ids with
  | none => i
  | some ids => ids.getD i 0

/-- The output index written at loop index `i` by the bulk evaluators:
`dense_output ? i : c_id`. -/
def bulk_out_id (elt_ids : Option (List ℕ)) (dense_output : Bool) (i : ℕ) : ℕ :=
  if dense_output then i else bulk_cell_id elt_ids i

/-- `_get_time_pty4std_sat_tracer` (cs_gwf_tracer.c, l.107-142): bulk
evaluation of the time coefficient, saturated model:
`result[id] = saturated_moisture(soil) + rho_kd[soil]`. -/
def get_time_pty4std_sat_tracer (S : SoilService) (n_elts : ℕ)
    (elt_ids : Option (List ℕ)) (dense_output : Bool) (tc : TracerContext)
    (result : ℕ → ℚ) : ℕ → ℚ :=
  (List.range n_elts).foldl (fun res i =>
    let c_id := match elt_ids with
      | none => i
      | some ids => ids.getD i 0
    let id := if dense_output then i else c_id
    let soil_id := S.c2s c_id
    Function.update res id
      (S.saturated_moisture soil_id + tc.rho_kd soil_id)) result

/-- `_get_time_pty4std_sat_tracer_cw` (cs_gwf_tracer.c, l.158-177):
cell-wise evaluation of the same coefficient; of the cell-local mesh view
only `cm->c_id` is read, so the view is reduced to the cell id. -/
def get_time_pty4std_sat_tracer_cw (S : SoilService) (c_id : ℕ)
    (tc : TracerContext) : ℚ :=
  S.saturated_moisture (S.c2s c_id) + tc.rho_kd (S.c2s c_id)

/-- `_get_time_pty4std_tracer` (cs_gwf_tracer.c, l.197-235): bulk
evaluation of the time coefficient, general (unsaturated) model:
`result[id] = theta[c_id] + rho_kd[soil]`, with a separate plain loop when
`elt_ids == NULL`. -/
def get_time_pty4std_tracer (S : SoilService) (n_elts : ℕ)
    (elt_ids : Option (List ℕ)) (dense_output : Bool) (tc : TracerContext)
    (result : ℕ → ℚ) : ℕ → ℚ :=
  match elt_ids with
  | none =>
      (List.range n_elts).foldl (fun res i =>
        Function.update res i
          (tc.l_saturation i + tc.rho_kd (S.c2s i))) result
  | some ids =>
      (List.range n_elts).foldl (fun res i =>
        let c_id := ids.getD i 0
        let id := if dense_output then i else c_id
        Function.update res id
          (tc.l_saturation c_id + tc.rho_kd (S.c2s c_id))) result

/-- `_get_time_pty4std_tracer_cw` (cs_gwf_tracer.c, l.250-266). -/
def get_time_pty4std_tracer_cw (S : SoilService) (c_id : ℕ)
    (tc : TracerContext) : ℚ :=
  tc.l_saturation c_id + tc.rho_kd (S.c2s c_id)

/-- `_get_reaction_pty4std_sat_tracer` (cs_gwf_tracer.c, l.287-322):
`result[id] = (saturated_moisture + rho_kd[s]) * reaction_rate[s]`. -/
def get_reaction_pty4std_sat_tracer (S : SoilService) (n_elts : ℕ)
    (elt_ids : Option (List ℕ)) (dense_output : Bool) (tc : TracerContext)
    (result : ℕ → ℚ) : ℕ → ℚ :=
  (List.range n_elts).foldl (fun res i =>
    let c_id := match elt_ids with
      | none => i
      | some ids => ids.getD i 0
    let id := if dense_output then i else c_id
    let s := S.c2s c_id
    Function.update res id
      ((S.saturated_moisture s + tc.rho_kd s) * tc.reaction_rate s)) result

/-- `_get_reaction_pty4std_sat_tracer_cw` (cs_gwf_tracer.c, l.338-357). -/
def get_reaction_pty4std_sat_tracer_cw (S : SoilService) (c_id : ℕ)
    (tc : TracerContext) : ℚ :=
  (S.saturated_moisture (S.c2s c_id) + tc.rho_kd (S.c2s c_id)) *
    tc.reaction_rate (S.c2s c_id)

/-- `_get_reaction_pty4std_tracer` (cs_gwf_tracer.c, l.377-424):
`result[id] = (theta[c_id] + rho_kd[s]) * reaction_rate[s]`, with a
separate plain loop when `elt_ids == NULL`. -/
def get_reaction_pty4std_tracer (S : SoilService) (n_elts : ℕ)
    (elt_ids : Option (List ℕ)) (dense_output : Bool) (tc : TracerContext)
    (result : ℕ → ℚ) : ℕ → ℚ :=
  match elt_ids with
  | none =>
      (List.range n_elts).foldl (fun res i =>
        let s := S.c2s i
        Function.update res i
          ((tc.l_saturation i + tc.rho_kd s) * tc.reaction_rate s)) result
  | some ids =>
      (List.range n_elts).foldl (fun res i =>
        let c_id := ids.getD i 0
        let s := S.c2s c_id
        let id := if dense_output then i else c_id
        Function.update res id
          ((tc.l_saturation c_id + tc.rho_kd s) * tc.reaction_rate s)) result

/-- `_get_reaction_pty4std_tracer_cw` (cs_gwf_tracer.c, l.439-457). -/
def get_reaction_pty4std_tracer_cw (S : SoilService) (c_id : ℕ)
    (tc : TracerContext) : ℚ :=
  (tc.l_saturation c_id + tc.rho_kd (S.c2s c_id)) *
    tc.reaction_rate (S.c2s c_id)

/-! ## Fatal error paths (`bft_error`) -/

/-- Diagnostic raised through `bft_error`, which prints a message and
aborts, never returning; each constructor records which message of
cs_gwf_tracer.c is printed. -/
inductive GwfError
  | emptyTracer        -- "The structure related to a tracer is empty"
  | soilNotFound       -- "Soil %s not found among the predefined soils"
  | invalidSpaceScheme -- "Invalid space scheme"
  | moistureNotDefined -- "moisture_content not defined"
deriving DecidableEq

/-- The space discretisation schemes of `cs_param_space_scheme_t`. -/
inductive SpaceScheme
  | CDOVB
  | CDOVCB
  | CDOEB
  | CDOFB
  | HHO_P0
  | HHO_P1
  | HHO_P2
deriving DecidableEq

/-- A soil as read by `cs_gwf_set_main_tracer_param`; its position in the
soil list is its id. -/
structure GwfSoil where
  name : String
  bulk_density : ℚ

/-- The per-soil parameter tables of `cs_gwf_tracer_context_t` written by
`cs_gwf_set_main_tracer_param`. -/
structure TracerParams where
  rho_bulk : ℕ → ℚ
  kd0 : ℕ → ℚ
  rho_kd : ℕ → ℚ
  alpha_l : ℕ → ℚ
  alpha_t : ℕ → ℚ
  wmd : ℕ → ℚ
  reaction_rate : ℕ → ℚ

/-- The per-soil writes of `cs_gwf_set_main_tracer_param`
(cs_gwf_tracer.c, l.1102-1108 and l.1121-1127). -/
def set_soil_params (tp : TracerParams) (soil_id : ℕ) (bulk_density : ℚ)
    (wmd alpha_l alpha_t distrib_coef reaction_rate : ℚ) : TracerParams :=
  { rho_bulk := Function.update tp.rho_bulk soil_id bulk_density,
    kd0 := Function.update tp.kd0 soil_id distrib_coef,
    rho_kd := Function.update tp.rho_kd soil_id (bulk_density * distrib_coef),
    alpha_l := Function.update tp.alpha_l soil_id alpha_l,
    alpha_t := Function.update tp.alpha_t soil_id alpha_t,
    wmd := Function.update tp.wmd soil_id wmd,
    reaction_rate := Function.update tp.reaction_rate soil_id reaction_rate }

/-- `cs_gwf_set_main_tracer_param` (cs_gwf_tracer.c, l.1078-1131): a NULL
tracer is fatal (`bft_error` with the empty-tracer message, so the function
never returns normally); otherwise the parameters are stored for every soil
(NULL soil name) or for the named soil, an unknown name being fatal too. -/
def cs_gwf_set_main_tracer_param (soils : List GwfSoil)
    (tracer : Option TracerParams) (soil_name : Option String)
    (wmd alpha_l alpha_t distrib_coef reaction_rate : ℚ) :
    Except GwfError TracerParams :=
  match tracer with
  | none => Except.error GwfError.emptyTracer
  | some tp =>
    match soil_name with
    | none =>
        Except.ok ((List.range soils.length).foldl (fun tp soil_id =>
          set_soil_params tp soil_id
            ((soils.getD soil_id ⟨"", 0⟩).bulk_density)
            wmd alpha_l alpha_t distrib_coef reaction_rate) tp)
    | some nm =>
        match soils.findIdx? (fun s => s.name == nm) with
        | none => Except.error GwfError.soilNotFound
        | some idx =>
            Except.ok (set_soil_params tp idx
              ((soils.getD idx ⟨"", 0⟩).bulk_density)
              wmd alpha_l alpha_t distrib_coef reaction_rate)

/-- `_add_precipitation` (cs_gwf_tracer.c, l.810-896): compute the
precipitate array size `a_size` (fatal `bft_error` "Invalid space scheme"
for any scheme other than CDOVB/CDOVCB), allocate it zeroed, and build the
`conc_satura` table.  Returns (a_size, conc_precip, conc_satura). -/
def add_precipitation (scheme : SpaceScheme) (n_cells : ℕ)
    (c2v : ℕ → List ℕ) (soils : List SatSoil) :
    Except GwfError (ℕ × (ℕ × ℕ → ℚ) × (ℕ → ℚ)) :=
  match scheme with
  | SpaceScheme.CDOVB =>
      Except.ok ((List.range n_cells).foldl (fun a c => a + (c2v c).length) 0,
        fun _ => 0, build_conc_satura c2v soils)
  | SpaceScheme.CDOVCB =>
      Except.ok (((List.range n_cells).foldl
          (fun a c => a + (c2v c).length) 0) + n_cells,
        fun _ => 0, build_conc_satura c2v soils)
  | _ => Except.error GwfError.invalidSpaceScheme

/-- `cs_gwf_tracer_integrate` (cs_gwf_tracer.c, l.1539-1625): integral of
the tracer over a zone.  An unset moisture field is fatal (`bft_error`
"moisture_content not defined", checked before the scheme switch); an
unrecognized space scheme is fatal ("Invalid space scheme").  For CDOVB the
cell contribution is the dual-volume-weighted sum of vertex values; for
CDOVCB the cell unknown carries 1/4 of the cell volume and each vertex 3/4
of its dual volume; both are scaled by `moisture + rho_kd`. -/
def cs_gwf_tracer_integrate (scheme : SpaceScheme)
    (moisture : Option (ℕ → ℚ)) (rho_kd : ℕ → ℚ) (c2s : ℕ → ℕ)
    (c2v : ℕ → List ℕ) (dcell_vol : ℕ × ℕ → ℚ) (cell_vol : ℕ → ℚ)
    (v_vals : ℕ → ℚ) (c_vals : ℕ → ℚ) (zone : List ℕ) :
    Except GwfError ℚ :=
  match moisture with
  | none => Except.error GwfError.moistureNotDefined
  | some moisture_val =>
    match scheme with
    | SpaceScheme.CDOVB =>
        Except.ok (zone.foldl (fun int_value c_id =>
          int_value + (moisture_val c_id + rho_kd (c2s c_id)) *
            ((List.range ((c2v c_id).length)).foldl (fun acc j =>
              acc + dcell_vol (c_id, j) * v_vals ((c2v c_id).getD j 0)) 0)) 0)
    | SpaceScheme.CDOVCB =>
        Except.ok (zone.foldl (fun int_value c_id =>
          int_value + (moisture_val c_id + rho_kd (c2s c_id)) *
            ((List.range ((c2v c_id).length)).foldl (fun acc j =>
              acc + (3/4) * dcell_vol (c_id, j) * v_vals ((c2v c_id).getD j 0))
              ((1/4) * cell_vol c_id * c_vals c_id))) 0)
    | _ => Except.error GwfError.invalidSpaceScheme

/-! ## Dispersion (diffusion) tensor updaters -/

/-- `cs_math_zero_threshold` (cs_math.h): the numerical zero threshold,
`FLT_MIN = 2^(-126)`. -/
noncomputable def cs_math_zero_threshold : ℝ := 2 ^ (-(126 : ℤ))

/-- Euclidean norm of the local Darcy velocity, the code's
`vnorm = sqrt(v2[0] + v2[1] + v2[2])`. -/
noncomputable def darcy_norm (v : Fin 3 → ℝ) : ℝ :=
  Real.sqrt (v 0 * v 0 + v 1 * v 1 + v 2 * v 2)

/-- The code's `delta`: `(al - at)/vnorm` when `vnorm` exceeds the
numerical zero threshold, else `0` (cs_gwf_tracer.c, l.519-521 and
l.606-608). -/
noncomputable def dispersion_delta (alpha_l alpha_t : ℝ) (v : Fin 3 → ℝ) : ℝ :=
  if cs_math_zero_threshold < darcy_norm v then
    (alpha_l - alpha_t) / darcy_norm v
  else 0

/-- The tensor write sequence of `_update_diff_pty` / `_update_sat_diff_pty`
(cs_gwf_tracer.c, l.526-539 and l.613-626) on the 9-entry row
`_r = values + 9*c_id`: for `ki = 0,1,2` write the diagonal entry
`_r[3*ki+ki] = coef1 + delta*v2[ki]`, and for each `kj > ki` the
extra-diagonal entry `_r[3*ki+kj] = dcv[ki]*v[kj]`, mirrored onto
`_r[3*kj+ki]` (tensor symmetric by construction); here
`v2[k] = v[k]*v[k]`, `coef1 = wmd*theta + at*vnorm`,
`delta = (al - at)/vnorm` guarded by the zero threshold, `dcv = delta*v`. -/
noncomputable def diff_tensor_cell (wmd alpha_l alpha_t theta : ℝ)
    (v : Fin 3 → ℝ) (r : ℕ → ℝ) : ℕ → ℝ :=
  let v2 : Fin 3 → ℝ := fun k => v k * v k
  let vnorm : ℝ := Real.sqrt (v2 0 + v2 1 + v2 2)
  let coef1 : ℝ := wmd * theta + alpha_t * vnorm
  let delta : ℝ := if cs_math_zero_threshold < vnorm then
      (alpha_l - alpha_t) / vnorm
    else 0
  let dcv : Fin 3 → ℝ := fun k => delta * v k
  Function.update (Function.update (Function.update (Function.update
    (Function.update (Function.update (Function.update (Function.update
      (Function.update r
        0 (coef1 + delta * v2 0))
        1 (dcv 0 * v 1))
        3 (dcv 0 * v 1))
        2 (dcv 0 * v 2))
        6 (dcv 0 * v 2))
        4 (coef1 + delta * v2 1))
        5 (dcv 1 * v 2))
        7 (dcv 1 * v 2))
        8 (coef1 + delta * v2 2)

/-- Per-soil data of the diffusion updaters: the soil's zone, the
water molecular diffusivity `wmd`, the dispersivities `alpha_l`/`alpha_t`
(all from the tracer context arrays, indexed by soil id) and the saturated
moisture returned by `cs_gwf_soil_get_saturated_moisture` for this soil. -/
structure DiffSoil where
  zone : List ℕ
  wmd : ℝ
  alpha_l : ℝ
  alpha_t : ℝ
  theta_s : ℝ

/-- `_update_sat_diff_pty` (cs_gwf_tracer.c, l.475-545): per soil, per cell
of its zone, overwrite the 9-entry block of `values` at the cell with the
dispersion tensor of the cell's Darcy velocity, with `theta` the constant
saturated moisture of the soil. -/
noncomputable def update_sat_diff_pty (soils : List DiffSoil)
    (velocity : ℕ → Fin 3 → ℝ) (values : ℕ → ℕ → ℝ) : ℕ → ℕ → ℝ :=
  soils.foldl (fun vals soil =>
    soil.zone.foldl (fun vals c_id =>
      Function.update vals c_id
        (diff_tensor_cell soil.wmd soil.alpha_l soil.alpha_t soil.theta_s
          (velocity c_id) (vals c_id))) vals) values

/-- `_update_diff_pty` (cs_gwf_tracer.c, l.562-632): as
`update_sat_diff_pty` but `theta` is the per-cell saturation field
`tc->l_saturation` sampled at the cell. -/
noncomputable def update_diff_pty (soils : List DiffSoil) (theta : ℕ → ℝ)
    (velocity : ℕ → Fin 3 → ℝ) (values : ℕ → ℕ → ℝ) : ℕ → ℕ → ℝ :=
  soils.foldl (fun vals soil =>
    soil.zone.foldl (fun vals c_id =>
      Function.update vals c_id
        (diff_tensor_cell soil.wmd soil.alpha_l soil.alpha_t (theta c_id)
          (velocity c_id) (vals c_id))) vals) values

lemma foldl_flatMap_eq {α β σ : Type _} (f : α → List β) (g : σ → β → σ) :
    ∀ (l : List α) (s : σ),
      (l.flatMap f).foldl g s = l.foldl (fun s a => (f a).foldl g s) s := by
  intro l
  induction l with
  | nil => intro s; rfl
  | cons a l ih => intro s; simp [List.flatMap_cons, List.foldl_append, ih]

/-- The loop nest of `update_precipitation_vb` is the left fold of
`precip_step` over the flattened slot sequence. -/
lemma update_precipitation_vb_eq_foldl (soils : List PrecipSoil)
    (theta : ℕ → ℚ) (c2v : ℕ → List ℕ) (conc_satura : ℕ → ℚ)
    (st : PrecipState) :
    update_precipitation_vb soils theta c2v conc_satura st =
      (precip_slots soils theta c2v).foldl
        (precip_slot_step c2v conc_satura st.c_w) st := by
  unfold update_precipitation_vb precip_slots
  simp only [foldl_flatMap_eq, List.foldl_map]
  rfl

/-! ### Helper lemmas on `precip_step` -/

lemma precip_step_c_w_ne (c2v : ℕ → List ℕ) (sat cws : ℕ → ℚ)
    (rho theta_c : ℚ) (c k : ℕ) (st : PrecipState) (v : ℕ)
    (h : (c2v c).getD k 0 ≠ v) :
    (precip_step c2v sat cws rho theta_c c k st).c_w v = st.c_w v := by
  simp only [precip_step]
  split_ifs <;> simp [Function.update_noteq (Ne.symm h)]

lemma precip_step_c_p_ne (c2v : ℕ → List ℕ) (sat cws : ℕ → ℚ)
    (rho theta_c : ℚ) (c k : ℕ) (st : PrecipState) (p : ℕ × ℕ)
    (h : p ≠ (c, k)) :
    (precip_step c2v sat cws rho theta_c c k st).c_p p = st.c_p p := by
  simp only [precip_step]
  split_ifs <;> simp [Function.update_noteq h]

lemma precip_step_c_w_le (c2v : ℕ → List ℕ) (sat cws : ℕ → ℚ)
    (rho theta_c : ℚ) (c k : ℕ) (st : PrecipState) (v : ℕ)
    (h : st.c_w v ≤ sat v) :
    (precip_step c2v sat cws rho theta_c c k st).c_w v ≤ sat v := by
  simp only [precip_step]
  by_cases hv : (c2v c).getD k 0 = v
  · subst hv
    split_ifs with h1 h2
    · simp only [Function.update_same]
      exact max_le h (min_le_left _ _)
    · simp [Function.update_same]
    · exact h
  · split_ifs <;> simp [Function.update_noteq (Ne.symm hv), h]

lemma precip_step_c_w_touch (c2v : ℕ → List ℕ) (sat cws : ℕ → ℚ)
    (rho theta_c : ℚ) (c k : ℕ) (st : PrecipState) (v : ℕ)
    (hv : (c2v c).getD k 0 = v)
    (hq : st.c_w v ≤ sat v ∨ st.c_w v = cws v) :
    (precip_step c2v sat cws rho theta_c c k st).c_w v ≤ sat v := by
  simp only [precip_step]
  subst hv
  split_ifs with h1 h2
  · simp only [Function.update_same]
    refine max_le ?_ (min_le_left _ _)
    rcases hq with h | h
    · exact h
    · rw [h]; exact h1.1
  · simp [Function.update_same]
  · push_neg at h1 h2
    rcases hq with h | h
    · exact h
    · rw [h]; exact h2

lemma precip_step_c_w_Q (c2v : ℕ → List ℕ) (sat cws : ℕ → ℚ)
    (rho theta_c : ℚ) (c k : ℕ) (st : PrecipState) (v : ℕ)
    (hq : st.c_w v ≤ sat v ∨ st.c_w v = cws v) :
    (precip_step c2v sat cws rho theta_c c k st).c_w v ≤ sat v ∨
      (precip_step c2v sat cws rho theta_c c k st).c_w v = cws v := by
  by_cases hv : (c2v c).getD k 0 = v
  · exact Or.inl (precip_step_c_w_touch c2v sat cws rho theta_c c k st v hv hq)
  · rw [precip_step_c_w_ne c2v sat cws rho theta_c c k st v hv]
    exact hq

/-! ### Fold lemmas over slot lists -/

lemma precip_foldl_c_w_ne (c2v : ℕ → List ℕ) (sat cws : ℕ → ℚ) (v : ℕ) :
    ∀ (L : List PrecipSlot) (st : PrecipState),
      (∀ sl ∈ L, sl.vtx c2v ≠ v) →
      (L.foldl (precip_slot_step c2v sat cws) st).c_w v = st.c_w v := by
  intro L
  induction L with
  | nil => intro st _; rfl
  | cons sl L ih =>
      intro st h
      rw [List.foldl_cons, ih _ (fun x hx => h x (List.mem_cons_of_mem _ hx))]
      exact precip_step_c_w_ne c2v sat cws sl.rho sl.theta sl.c sl.k st v
        (h sl (List.mem_cons_self _ _))

lemma precip_foldl_c_p_ne (c2v : ℕ → List ℕ) (sat cws : ℕ → ℚ) (v : ℕ)
    (p : ℕ × ℕ) (hp : (c2v p.1).getD p.2 0 = v) :
    ∀ (L : List PrecipSlot) (st : PrecipState),
      (∀ sl ∈ L, sl.vtx c2v ≠ v) →
      (L.foldl (precip_slot_step c2v sat cws) st).c_p p = st.c_p p := by
  intro L
  induction L with
  | nil => intro st _; rfl
  | cons sl L ih =>
      intro st h
      rw [List.foldl_cons, ih _ (fun x hx => h x (List.mem_cons_of_mem _ hx))]
      refine precip_step_c_p_ne c2v sat cws sl.rho sl.theta sl.c sl.k st p ?_
      intro hpe
      subst hpe
      exact h sl (List.mem_cons_self _ _) hp

lemma precip_foldl_c_w_le (c2v : ℕ → List ℕ) (sat cws : ℕ → ℚ) (v : ℕ) :
    ∀ (L : List PrecipSlot) (st : PrecipState),
      st.c_w v ≤ sat v →
      (L.foldl (precip_slot_step c2v sat cws) st).c_w v ≤ sat v := by
  intro L
  induction L with
  | nil => intro st h; exact h
  | cons sl L ih =>
      intro st h
      rw [List.foldl_cons]
      exact ih _ (precip_step_c_w_le c2v sat cws sl.rho sl.theta sl.c sl.k st v h)

lemma precip_foldl_c_w_Q (c2v : ℕ → List ℕ) (sat cws : ℕ → ℚ) (v : ℕ) :
    ∀ (L : List PrecipSlot) (st : PrecipState),
      (st.c_w v ≤ sat v ∨ st.c_w v = cws v) →
      ((L.foldl (precip_slot_step c2v sat cws) st).c_w v ≤ sat v ∨
        (L.foldl (precip_slot_step c2v sat cws) st).c_w v = cws v) := by
  intro L
  induction L with
  | nil => intro st h; exact h
  | cons sl L ih =>
      intro st h
      rw [List.foldl_cons]
      exact ih _ (precip_step_c_w_Q c2v sat cws sl.rho sl.theta sl.c sl.k st v h)

/-- C3: after any run of the precipitation/dissolution update
(`_update_precipitation_vb`), the dissolved concentration never exceeds
saturation: `c_w[v] <= c_sat[v]` for every vertex `v` covered by the loop
nest (i.e. incident to at least one processed (cell, vertex) slot, which is
every vertex when the soils partition the mesh).  The branch selection uses
`c_w_save`, the copy of `c_w` taken at function entry, so the claim's
precondition that `c_w` equals the saved values holds by construction; the
saturation table `conc_satura` is a total function here, i.e. set. -/
theorem C3_precipitation_saturation_clamp (soils : List PrecipSoil)
    (theta : ℕ → ℚ) (c2v : ℕ → List ℕ) (conc_satura : ℕ → ℚ)
    (st : PrecipState) (v : ℕ)
    (hcov : ∃ sl ∈ precip_slots soils theta c2v, sl.vtx c2v = v) :
    (update_precipitation_vb soils theta c2v conc_satura st).c_w v ≤
      conc_satura v := by
  obtain ⟨sl, hmem, hv⟩ := hcov
  obtain ⟨L1, L2, hsplit⟩ := List.append_of_mem hmem
  rw [update_precipitation_vb_eq_foldl, hsplit, List.foldl_append,
    List.foldl_cons]
  apply precip_foldl_c_w_le
  show (precip_step _ _ _ _ _ _ _ _).c_w v ≤ conc_satura v
  apply precip_step_c_w_touch _ _ _ _ _ _ _ _ _ hv
  exact precip_foldl_c_w_Q c2v conc_satura st.c_w v L1 st (Or.inr rfl)

/-- C3 witness: a one-cell, one-vertex configuration with precipitate
present; the updated vertex value stays below saturation. -/
theorem C3_witness :
    (update_precipitation_vb [⟨1, [0]⟩] (fun _ => 1) (fun _ => [0])
      (fun _ => 10) ⟨fun _ => 0, fun _ => 1⟩).c_w 0 ≤ 10 :=
  C3_precipitation_saturation_clamp [⟨1, [0]⟩] (fun _ => 1) (fun _ => [0])
    (fun _ => 10) ⟨fun _ => 0, fun _ => 1⟩ 0 ⟨⟨1, 1, 0, 0⟩, by decide, rfl⟩

/-- Arithmetic core of the dissolution branch: the amount removed from the
precipitate slot is at most the slot's current (nonnegative) content. -/
lemma dissolve_sub_nonneg (rho theta_c s w cp : ℚ) (hrho : 0 < rho)
    (htheta : 0 < theta_c) (_hcp : 0 ≤ cp) :
    0 ≤ cp - theta_c * (1 / rho) * (min s (w + rho * (1 / theta_c) * cp) - w) := by
  have hmin : min s (w + rho * (1 / theta_c) * cp) - w ≤ rho * (1 / theta_c) * cp := by
    have := min_le_right s (w + rho * (1 / theta_c) * cp)
    linarith
  have hfac : 0 ≤ theta_c * (1 / rho) :=
    mul_nonneg htheta.le (one_div_nonneg.mpr hrho.le)
  have hmul : theta_c * (1 / rho) * (min s (w + rho * (1 / theta_c) * cp) - w) ≤
      theta_c * (1 / rho) * (rho * (1 / theta_c) * cp) :=
    mul_le_mul_of_nonneg_left hmin hfac
  have hr : rho ≠ 0 := hrho.ne'
  have ht : theta_c ≠ 0 := htheta.ne'
  have hcancel : theta_c * (1 / rho) * (rho * (1 / theta_c) * cp) = cp := by
    field_simp
    ring
  linarith

lemma precip_step_c_p_nonneg (c2v : ℕ → List ℕ) (sat cws : ℕ → ℚ)
    (rho theta_c : ℚ) (c k : ℕ) (st : PrecipState)
    (hrho : 0 < rho) (htheta : 0 < theta_c) (h0 : ∀ p, 0 ≤ st.c_p p) :
    ∀ p, 0 ≤ (precip_step c2v sat cws rho theta_c c k st).c_p p := by
  intro p
  simp only [precip_step]
  split_ifs with h1 h2
  · rcases eq_or_ne p (c, k) with hp | hp
    · subst hp
      simp only [Function.update_same]
      exact dissolve_sub_nonneg rho theta_c _ _ _ hrho htheta (h0 _)
    · simpa [Function.update_noteq hp] using h0 p
  · rcases eq_or_ne p (c, k) with hp | hp
    · subst hp
      simp only [Function.update_same]
      have hfac : 0 ≤ theta_c * (1 / rho) :=
        mul_nonneg htheta.le (one_div_nonneg.mpr hrho.le)
      have hpos : 0 ≤ theta_c * (1 / rho) *
          (cws ((c2v c).getD k 0) - sat ((c2v c).getD k 0)) :=
        mul_nonneg hfac (by linarith)
      have := h0 (c, k)
      linarith
    · simpa [Function.update_noteq hp] using h0 p
  · exact h0 p

lemma precip_foldl_c_p_nonneg (c2v : ℕ → List ℕ) (sat cws : ℕ → ℚ) :
    ∀ (L : List PrecipSlot) (st : PrecipState),
      (∀ sl ∈ L, 0 < sl.rho ∧ 0 < sl.theta) →
      (∀ p, 0 ≤ st.c_p p) →
      ∀ p, 0 ≤ (L.foldl (precip_slot_step c2v sat cws) st).c_p p := by
  intro L
  induction L with
  | nil => intro st _ h0 p; exact h0 p
  | cons sl L ih =>
      intro st h h0 p
      rw [List.foldl_cons]
      refine ih _ (fun x hx => h x (List.mem_cons_of_mem _ hx)) ?_ p
      have hsl := h sl (List.mem_cons_self _ _)
      exact precip_step_c_p_nonneg c2v sat cws sl.rho sl.theta sl.c sl.k st
        hsl.1 hsl.2 h0

/-- C6: the precipitate concentration array stays non-negative after a run
of `_update_precipitation_vb`, provided it was non-negative before and every
soil bulk density and every cell saturation is positive: the dissolution
branch caps the dissolved amount at `c_w_saved[v] + rho/theta_c * c_p[j]`,
so it never removes more than the slot holds. -/
theorem C6_conc_precip_nonneg (soils : List PrecipSoil) (theta : ℕ → ℚ)
    (c2v : ℕ → List ℕ) (conc_satura : ℕ → ℚ) (st : PrecipState)
    (h0 : ∀ p, 0 ≤ st.c_p p)
    (hrho : ∀ soil ∈ soils, 0 < soil.rho_bulk)
    (htheta : ∀ c, 0 < theta c) :
    ∀ p, 0 ≤ (update_precipitation_vb soils theta c2v conc_satura st).c_p p := by
  rw [update_precipitation_vb_eq_foldl]
  refine precip_foldl_c_p_nonneg c2v conc_satura st.c_w _ st ?_ h0
  intro sl hsl
  simp only [precip_slots, List.mem_flatMap, List.mem_map, List.mem_range] at hsl
  obtain ⟨soil, hsoil, c, hc, j, hj, rfl⟩ := hsl
  exact ⟨hrho soil hsoil, htheta c⟩

/-- C6 witness: concrete one-cell configuration, evaluated at slot (0,0). -/
theorem C6_witness :
    0 ≤ (update_precipitation_vb [⟨1, [0]⟩] (fun _ => 1) (fun _ => [0])
      (fun _ => 10) ⟨fun _ => 0, fun _ => 1⟩).c_p (0, 0) :=
  C6_conc_precip_nonneg [⟨1, [0]⟩] (fun _ => 1) (fun _ => [0])
    (fun _ => 10) ⟨fun _ => 0, fun _ => 1⟩
    (fun _ => by norm_num)
    (by intro s hs; rw [List.mem_singleton] at hs; subst hs; norm_num)
    (fun _ => by norm_num) (0, 0)

/-- Value written to `c_w` by the dissolution branch of `precip_step`. -/
lemma precip_step_dissolve_c_w (c2v : ℕ → List ℕ) (sat cws : ℕ → ℚ)
    (rho theta_c : ℚ) (c k : ℕ) (st : PrecipState)
    (hd : cws ((c2v c).getD k 0) ≤ sat ((c2v c).getD k 0))
    (hp : 0 < st.c_p (c, k)) :
    (precip_step c2v sat cws rho theta_c c k st).c_w ((c2v c).getD k 0) =
      max (st.c_w ((c2v c).getD k 0))
        (min (sat ((c2v c).getD k 0))
          (cws ((c2v c).getD k 0) + rho * (1 / theta_c) * st.c_p (c, k))) := by
  simp only [precip_step]
  rw [if_pos ⟨hd, hp⟩]
  simp [Function.update_same]

/-- Value written to `c_p` by the dissolution branch of `precip_step`. -/
lemma precip_step_dissolve_c_p (c2v : ℕ → List ℕ) (sat cws : ℕ → ℚ)
    (rho theta_c : ℚ) (c k : ℕ) (st : PrecipState)
    (hd : cws ((c2v c).getD k 0) ≤ sat ((c2v c).getD k 0))
    (hp : 0 < st.c_p (c, k)) :
    (precip_step c2v sat cws rho theta_c c k st).c_p (c, k) =
      st.c_p (c, k) - theta_c * (1 / rho) *
        (min (sat ((c2v c).getD k 0))
          (cws ((c2v c).getD k 0) + rho * (1 / theta_c) * st.c_p (c, k)) -
         cws ((c2v c).getD k 0)) := by
  simp only [precip_step]
  rw [if_pos ⟨hd, hp⟩]
  simp [Function.update_same]

/-- C1 (amended): mass conservation of one dissolution step, for a vertex in
the dissolving state that is incident to exactly one processed (cell,
vertex) slot: the change of the dissolved concentration at the vertex
satisfies `delta(c_w) * theta_c / rho = -delta(c_p)` at that slot, given
positive bulk density and saturation.  (The unamended per-vertex statement,
with `delta(c_p)` summed over all incident slots, fails when the vertex is
shared by several dissolving slots: see the counterexample.) -/
theorem C1_mass_conservation_single_slot (soils : List PrecipSoil)
    (theta : ℕ → ℚ) (c2v : ℕ → List ℕ) (conc_satura : ℕ → ℚ)
    (st : PrecipState) (v : ℕ) (sl : PrecipSlot)
    (hfilter : (precip_slots soils theta c2v).filter
      (fun s => s.vtx c2v == v) = [sl])
    (hrho : 0 < sl.rho) (htheta : 0 < sl.theta)
    (hsat : st.c_w v ≤ conc_satura v)
    (hcp : 0 < st.c_p (sl.c, sl.k)) :
    ((update_precipitation_vb soils theta c2v conc_satura st).c_w v -
        st.c_w v) * sl.theta / sl.rho =
      -((update_precipitation_vb soils theta c2v conc_satura st).c_p
          (sl.c, sl.k) - st.c_p (sl.c, sl.k)) := by
  rw [List.filter_eq_cons_iff] at hfilter
  obtain ⟨L1, L2, hsplit, hL1, hslv, hL2⟩ := hfilter
  rw [List.filter_eq_nil_iff] at hL2
  have hv : sl.vtx c2v = v := by simpa using hslv
  have hL1' : ∀ x ∈ L1, x.vtx c2v ≠ v := by
    intro x hx
    simpa using hL1 x hx
  have hL2' : ∀ x ∈ L2, x.vtx c2v ≠ v := by
    intro x hx
    simpa using hL2 x hx
  have hvid : (c2v sl.c).getD sl.k 0 = v := hv
  rw [update_precipitation_vb_eq_foldl, hsplit, List.foldl_append,
    List.foldl_cons]
  set st1 := L1.foldl (precip_slot_step c2v conc_satura st.c_w) st with hst1
  have e1 : st1.c_w v = st.c_w v :=
    precip_foldl_c_w_ne c2v conc_satura st.c_w v L1 st hL1'
  have e2 : st1.c_p (sl.c, sl.k) = st.c_p (sl.c, sl.k) :=
    precip_foldl_c_p_ne c2v conc_satura st.c_w v (sl.c, sl.k) hv L1 st hL1'
  have hd : st.c_w ((c2v sl.c).getD sl.k 0) ≤ conc_satura ((c2v sl.c).getD sl.k 0) := by
    rw [hvid]; exact hsat
  have hp1 : 0 < st1.c_p (sl.c, sl.k) := by rw [e2]; exact hcp
  set st2 := precip_slot_step c2v conc_satura st.c_w st1 sl with hst2
  have hw2 : st2.c_w v =
      min (conc_satura v) (st.c_w v + sl.rho * (1 / sl.theta) * st.c_p (sl.c, sl.k)) := by
    have := precip_step_dissolve_c_w c2v conc_satura st.c_w sl.rho sl.theta
      sl.c sl.k st1 hd hp1
    rw [hvid, e1, e2] at this
    rw [hst2, precip_slot_step, this]
    refine max_eq_right (le_min hsat ?_)
    have : 0 < sl.rho * (1 / sl.theta) * st.c_p (sl.c, sl.k) :=
      mul_pos (mul_pos hrho (one_div_pos.mpr htheta)) hcp
    linarith
  have hp2 : st2.c_p (sl.c, sl.k) =
      st.c_p (sl.c, sl.k) - sl.theta * (1 / sl.rho) *
        (min (conc_satura v) (st.c_w v + sl.rho * (1 / sl.theta) * st.c_p (sl.c, sl.k)) -
         st.c_w v) := by
    have := precip_step_dissolve_c_p c2v conc_satura st.c_w sl.rho sl.theta
      sl.c sl.k st1 hd hp1
    rw [hvid, e2] at this
    rw [hst2, precip_slot_step, this]
  have e3 : (L2.foldl (precip_slot_step c2v conc_satura st.c_w) st2).c_w v = st2.c_w v :=
    precip_foldl_c_w_ne c2v conc_satura st.c_w v L2 st2 hL2'
  have e4 : (L2.foldl (precip_slot_step c2v conc_satura st.c_w) st2).c_p (sl.c, sl.k) =
      st2.c_p (sl.c, sl.k) :=
    precip_foldl_c_p_ne c2v conc_satura st.c_w v (sl.c, sl.k) hv L2 st2 hL2'
  rw [e3, e4, hw2, hp2]
  ring

/-- C1 counterexample: the per-vertex mass balance claimed for
`_update_precipitation_vb` fails as stated when a dissolving vertex is
shared by two (cell, vertex) slots.  One soil (`rho = 1`), two cells `0, 1`
both containing vertex `0`, uniform saturation `theta = 1`, saturation
concentration `c_sat = 10`, initial `c_w = 0` and one unit of precipitate in
each slot: both slots dissolve one unit of precipitate
(`delta(c_p) = -2` in total over the slots incident to vertex 0) but the
vertex value only rises to `1` (`delta(c_w) * theta_c / rho = 1`), because
each slot raises `c_w` with `max` while decrementing its own slot. -/
theorem C1_counterexample :
    ¬ (((update_precipitation_vb [⟨1, [0, 1]⟩] (fun _ => 1) (fun _ => [0])
          (fun _ => 10) ⟨fun _ => 0, fun _ => 1⟩).c_w 0 - 0) * 1 / 1 =
      -(((update_precipitation_vb [⟨1, [0, 1]⟩] (fun _ => 1) (fun _ => [0])
          (fun _ => 10) ⟨fun _ => 0, fun _ => 1⟩).c_p (0, 0) - 1) +
        ((update_precipitation_vb [⟨1, [0, 1]⟩] (fun _ => 1) (fun _ => [0])
          (fun _ => 10) ⟨fun _ => 0, fun _ => 1⟩).c_p (1, 0) - 1))) := by
  norm_num [update_precipitation_vb, precip_step, Function.update,
    List.range_succ, List.range_zero, min_def, max_def]

/-- C1 witness for the amended statement: one cell, one vertex, dissolving
slot; the mass removed from the precipitate slot equals the mass gained by
the solution scaled by `theta_c / rho`. -/
theorem C1_witness :
    ((update_precipitation_vb [⟨1, [0]⟩] (fun _ => 1) (fun _ => [0])
        (fun _ => 10) ⟨fun _ => 0, fun _ => 1⟩).c_w 0 - 0) * 1 / 1 =
      -((update_precipitation_vb [⟨1, [0]⟩] (fun _ => 1) (fun _ => [0])
        (fun _ => 10) ⟨fun _ => 0, fun _ => 1⟩).c_p (0, 0) - 1) :=
  C1_mass_conservation_single_slot [⟨1, [0]⟩] (fun _ => 1) (fun _ => [0])
    (fun _ => 10) ⟨fun _ => 0, fun _ => 1⟩ 0 ⟨1, 1, 0, 0⟩
    (by decide) (by norm_num) (by norm_num) (by norm_num) (by norm_num)

/-! ### Lemmas for the `conc_satura` construction -/

lemma min_reduce_vtx_foldl (c_sat : ℚ) :
    ∀ (vs : List ℕ) (satf : ℕ → ℚ) (v : ℕ),
      (vs.foldl (fun satf v_id =>
        Function.update satf v_id (min (satf v_id) c_sat)) satf) v =
        if v ∈ vs then min (satf v) c_sat else satf v := by
  intro vs
  induction vs with
  | nil => simp
  | cons u vs ih =>
      intro satf v
      rw [List.foldl_cons, ih]
      by_cases huv : v = u
      · subst huv
        by_cases hv : v ∈ vs
        · simp [hv, Function.update_same, min_assoc, min_self]
        · simp [hv, Function.update_same]
      · by_cases hv : v ∈ vs
        · simp [hv, Function.update_noteq huv, List.mem_cons, huv]
        · simp [hv, Function.update_noteq huv, List.mem_cons, huv]

lemma min_reduce_soil_apply (c2v : ℕ → List ℕ) (c_sat : ℚ) :
    ∀ (cells : List ℕ) (satf : ℕ → ℚ) (v : ℕ),
      min_reduce_soil c2v c_sat cells satf v =
        if ∃ c ∈ cells, v ∈ c2v c then min (satf v) c_sat else satf v := by
  intro cells
  induction cells with
  | nil => simp [min_reduce_soil]
  | cons c cells ih =>
      intro satf v
      have hrw : min_reduce_soil c2v c_sat (c :: cells) satf =
          min_reduce_soil c2v c_sat cells
            ((c2v c).foldl (fun satf v_id =>
              Function.update satf v_id (min (satf v_id) c_sat)) satf) := rfl
      rw [hrw, ih, min_reduce_vtx_foldl]
      by_cases h1 : ∃ c' ∈ cells, v ∈ c2v c' <;> by_cases h2 : v ∈ c2v c <;>
        simp [h1, h2, min_assoc, min_self, List.mem_cons]

lemma build_fold_apply (c2v : ℕ → List ℕ) :
    ∀ (rest : List SatSoil) (b : ℕ → ℚ) (v : ℕ),
      (rest.foldl (fun satf s =>
          min_reduce_soil c2v s.conc_w_star s.zone satf) b) v =
        ((rest.filter (fun s => decide (∃ c ∈ s.zone, v ∈ c2v c))).map
          (fun s => s.conc_w_star)).foldl min (b v) := by
  intro rest
  induction rest with
  | nil => simp
  | cons s rest ih =>
      intro b v
      rw [List.foldl_cons, ih, min_reduce_soil_apply]
      by_cases h : ∃ c ∈ s.zone, v ∈ c2v c
      · simp [List.filter_cons, h]
      · simp [List.filter_cons, h]

lemma foldl_min_le_init : ∀ (l : List ℚ) (b : ℚ), l.foldl min b ≤ b := by
  intro l
  induction l with
  | nil => intro b; exact le_refl b
  | cons a l ih =>
      intro b
      rw [List.foldl_cons]
      exact le_trans (ih (min b a)) (min_le_left b a)

/-- C10: the per-vertex saturation table built by `_add_precipitation` is
initialised with soil 0's saturated concentration at every vertex and then
min-reduced with `conc_w_star[s]` over the vertices of each soil `s > 0`:
for every vertex `v`, `conc_satura[v]` is the minimum of `conc_w_star[0]`
and the `conc_w_star` of the soils `s > 0` owning a cell incident to `v`;
in particular `conc_satura[v] <= conc_w_star[0]` even for vertices not
incident to any cell of soil 0. -/
theorem C10_conc_satura_min_reduction (c2v : ℕ → List ℕ) (s0 : SatSoil)
    (rest : List SatSoil) (v : ℕ) :
    build_conc_satura c2v (s0 :: rest) v =
      ((rest.filter (fun s => decide (∃ c ∈ s.zone, v ∈ c2v c))).map
        (fun s => s.conc_w_star)).foldl min s0.conc_w_star ∧
    build_conc_satura c2v (s0 :: rest) v ≤ s0.conc_w_star := by
  have h1 : build_conc_satura c2v (s0 :: rest) v =
      ((rest.filter (fun s => decide (∃ c ∈ s.zone, v ∈ c2v c))).map
        (fun s => s.conc_w_star)).foldl min s0.conc_w_star := by
    rw [build_conc_satura]
    exact build_fold_apply c2v rest (fun _ => s0.conc_w_star) v
  exact ⟨h1, h1 ▸ foldl_min_le_init _ _⟩

/-! ### Lemmas for the divergence operator -/

lemma div_write_lt (i : ℕ) :
    ∀ (faces : List CellFace) (f0 : ℕ) (div : ℕ → ℚ), i < 3 * f0 →
      div_write f0 div faces i = div i := by
  intro faces
  induction faces with
  | nil => intro f0 div _; rfl
  | cons pfq rest ih =>
      intro f0 div hi
      show div_write (f0 + 1) _ rest i = div i
      rw [ih (f0 + 1) _ (by omega)]
      rw [Function.update_noteq (by omega), Function.update_noteq (by omega),
        Function.update_noteq (by omega)]

lemma div_write_entry :
    ∀ (faces : List CellFace) (f0 : ℕ) (div : ℕ → ℚ) (f : ℕ)
      (hf : f < faces.length) (k : ℕ) (hk : k < 3),
      div_write f0 div faces (3 * (f0 + f) + k) =
        ((faces.get ⟨f, hf⟩).f_sgn : ℚ) * (faces.get ⟨f, hf⟩).meas *
          (faces.get ⟨f, hf⟩).unitv ⟨k, hk⟩ := by
  intro faces
  induction faces with
  | nil => intro f0 div f hf; simp at hf
  | cons pfq rest ih =>
      intro f0 div f hf k hk
      match f with
      | 0 =>
          show div_write (f0 + 1) _ rest (3 * (f0 + 0) + k) = _
          rw [div_write_lt _ _ _ _ (by omega)]
          simp only [Nat.add_zero]
          interval_cases k
          · simp only [Nat.add_zero]
            rw [Function.update_noteq (by omega), Function.update_noteq (by omega),
              Function.update_same]
            rfl
          · rw [Function.update_noteq (by omega), Function.update_same]
            rfl
          · rw [Function.update_same]
            rfl
      | f' + 1 =>
          show div_write (f0 + 1) _ rest (3 * (f0 + (f' + 1)) + k) = _
          have hidx : 3 * (f0 + (f' + 1)) + k = 3 * ((f0 + 1) + f') + k := by
            ring
          rw [hidx, ih (f0 + 1) _ f' (by simpa using hf) k hk]
          rfl

/-- C4: for every face `f` of a cell-local mesh view,
`cs_cdofb_navsto_divergence_vect` writes
`div[3f + k] = f_sgn(f) * meas(f) * unitv(f)[k]` for `k = 0, 1, 2`: the
signed area vector of the face, stored face-major with the 3 components of
face `f` contiguous at offset `3f`, and (as the formula shows) not divided
by the cell volume. -/
theorem C4_divergence_entries (cm : CellMesh) (div : ℕ → ℚ) (f : ℕ)
    (hf : f < cm.faces.length) (k : ℕ) (hk : k < 3) :
    cs_cdofb_navsto_divergence_vect cm div (3 * f + k) =
      ((cm.faces.get ⟨f, hf⟩).f_sgn : ℚ) * (cm.faces.get ⟨f, hf⟩).meas *
        (cm.faces.get ⟨f, hf⟩).unitv ⟨k, hk⟩ := by
  have h := div_write_entry cm.faces 0 div f hf k hk
  rw [Nat.zero_add] at h
  exact h

/-- C4 witness: a single face with sign -1, area 2 and normal (0, 1, 0);
the middle component of its divergence entry is -2. -/
theorem C4_witness :
    cs_cdofb_navsto_divergence_vect
        ⟨[⟨2, fun j => if j = 1 then 1 else 0, -1⟩]⟩ (fun _ => 0) (3 * 0 + 1) =
      ((((⟨[⟨2, fun j => if j = 1 then 1 else 0, -1⟩]⟩ : CellMesh).faces.get
          ⟨0, by norm_num⟩).f_sgn : ℚ) *
        (((⟨[⟨2, fun j => if j = 1 then 1 else 0, -1⟩]⟩ : CellMesh).faces.get
          ⟨0, by norm_num⟩).meas) *
        (((⟨[⟨2, fun j => if j = 1 then 1 else 0, -1⟩]⟩ : CellMesh).faces.get
          ⟨0, by norm_num⟩).unitv ⟨1, by norm_num⟩)) :=
  C4_divergence_entries ⟨[⟨2, fun j => if j = 1 then 1 else 0, -1⟩]⟩
    (fun _ => 0) 0 (by norm_num) 1 (by norm_num)

/-- C7: on a cell whose signed face area vectors close (discrete Gauss
identity for a closed cell), the divergence operator written by
`cs_cdofb_navsto_divergence_vect` sums to zero componentwise over the faces
of the cell. -/
theorem C7_divergence_closed_cell_sum (cm : CellMesh) (div : ℕ → ℚ)
    (hclosed : ∀ k : Fin 3,
      (cm.faces.map (fun pfq => (pfq.f_sgn : ℚ) * pfq.meas * pfq.unitv k)).sum
        = 0) :
    ∀ k : Fin 3,
      ((List.range cm.faces.length).map
        (fun f => cs_cdofb_navsto_divergence_vect cm div (3 * f + k.val))).sum
        = 0 := by
  intro k
  have hmap : (List.range cm.faces.length).map
      (fun f => cs_cdofb_navsto_divergence_vect cm div (3 * f + k.val)) =
      cm.faces.map (fun pfq => (pfq.f_sgn : ℚ) * pfq.meas * pfq.unitv k) := by
    apply List.ext_getElem
    · simp
    · intro n h1 h2
      have hn : n < cm.faces.length := by simpa using h2
      simp only [List.getElem_map, List.getElem_range]
      have h := div_write_entry cm.faces 0 div n hn k.val k.isLt
      rw [Nat.zero_add] at h
      rw [show cs_cdofb_navsto_divergence_vect cm div (3 * n + k.val) =
        div_write 0 div cm.faces (3 * n + k.val) from rfl, h]
      simp [List.get_eq_getElem, Fin.eta]
  rw [hmap]
  exact hclosed k

/-- C7 witness: a closed two-face cell (equal areas and normals, opposite
signs); each component of the divergence sums to zero. -/
theorem C7_witness :
    ((List.range
      (⟨[⟨2, fun j => if j = 0 then 1 else 0, 1⟩,
         ⟨2, fun j => if j = 0 then 1 else 0, -1⟩]⟩ : CellMesh).faces.length).map
      (fun f => cs_cdofb_navsto_divergence_vect
        ⟨[⟨2, fun j => if j = 0 then 1 else 0, 1⟩,
          ⟨2, fun j => if j = 0 then 1 else 0, -1⟩]⟩ (fun _ => 0)
        (3 * f + (0 : Fin 3).val))).sum = 0 :=
  C7_divergence_closed_cell_sum
    ⟨[⟨2, fun j => if j = 0 then 1 else 0, 1⟩,
      ⟨2, fun j => if j = 0 then 1 else 0, -1⟩]⟩ (fun _ => 0)
    (by intro k; fin_cases k <;> norm_num [Fin.ext_iff]) 0

/-! ### Bulk versus cell-wise evaluator agreement -/

lemma foldl_update_range_eval (outIdx : ℕ → ℕ) (g : ℕ → ℚ) :
    ∀ (n : ℕ) (res : ℕ → ℚ) (j : ℕ), j < n →
      (∀ i, i < n → outIdx i = outIdx j → i = j) →
      ((List.range n).foldl
        (fun res i => Function.update res (outIdx i) (g i)) res) (outIdx j) =
        g j := by
  intro n
  induction n with
  | zero => intro res j hj; omega
  | succ n ih =>
      intro res j hj huniq
      rw [List.range_succ, List.foldl_append, List.foldl_cons, List.foldl_nil]
      rcases eq_or_ne j n with rfl | hne
      · rw [Function.update_same]
      · have hne' : outIdx j ≠ outIdx n :=
          fun he => hne ((huniq n (by omega) he.symm).symm)
        rw [Function.update_noteq hne']
        exact ih res j (by omega) (fun i hi he => huniq i (by omega) he)

/-- C5: for each of the four tracer coefficient evaluators (time and
reaction, saturated and general models), the bulk evaluator writes, at the
output slot of loop index `j` (dense or sparse indexing, explicit or
implicit cell list), exactly the value that the corresponding cell-wise
evaluator returns for the same cell and context.  The uniqueness hypothesis
rules out a later loop index overwriting the same output slot (it holds
trivially for dense output, and means no duplicate cell ids for sparse
output). -/
theorem C5_bulk_matches_cellwise (S : SoilService) (tc : TracerContext)
    (n_elts : ℕ) (elt_ids : Option (List ℕ)) (dense_output : Bool)
    (result : ℕ → ℚ) (j : ℕ) (hj : j < n_elts)
    (huniq : ∀ i, i < n_elts →
      bulk_out_id elt_ids dense_output i = bulk_out_id elt_ids dense_output j →
      i = j) :
    get_time_pty4std_sat_tracer S n_elts elt_ids dense_output tc result
        (bulk_out_id elt_ids dense_output j) =
      get_time_pty4std_sat_tracer_cw S (bulk_cell_id elt_ids j) tc ∧
    get_time_pty4std_tracer S n_elts elt_ids dense_output tc result
        (bulk_out_id elt_ids dense_output j) =
      get_time_pty4std_tracer_cw S (bulk_cell_id elt_ids j) tc ∧
    get_reaction_pty4std_sat_tracer S n_elts elt_ids dense_output tc result
        (bulk_out_id elt_ids dense_output j) =
      get_reaction_pty4std_sat_tracer_cw S (bulk_cell_id elt_ids j) tc ∧
    get_reaction_pty4std_tracer S n_elts elt_ids dense_output tc result
        (bulk_out_id elt_ids dense_output j) =
      get_reaction_pty4std_tracer_cw S (bulk_cell_id elt_ids j) tc := by
  refine ⟨?_, ?_, ?_, ?_⟩
  · cases elt_ids with
    | none =>
        exact foldl_update_range_eval (fun i => if dense_output then i else i)
          (fun i => S.saturated_moisture (S.c2s i) + tc.rho_kd (S.c2s i))
          n_elts result j hj huniq
    | some ids =>
        exact foldl_update_range_eval
          (fun i => if dense_output then i else ids.getD i 0)
          (fun i => S.saturated_moisture (S.c2s (ids.getD i 0)) +
            tc.rho_kd (S.c2s (ids.getD i 0)))
          n_elts result j hj huniq
  · cases elt_ids with
    | none =>
        have hrw : bulk_out_id none dense_output j = j := by
          simp [bulk_out_id, bulk_cell_id]
        rw [show get_time_pty4std_tracer S n_elts none dense_output tc result =
          (List.range n_elts).foldl (fun res i =>
            Function.update res i
              (tc.l_saturation i + tc.rho_kd (S.c2s i))) result from rfl, hrw]
        exact foldl_update_range_eval (fun i => i)
          (fun i => tc.l_saturation i + tc.rho_kd (S.c2s i))
          n_elts result j hj (fun i _ he => he)
    | some ids =>
        exact foldl_update_range_eval
          (fun i => if dense_output then i else ids.getD i 0)
          (fun i => tc.l_saturation (ids.getD i 0) +
            tc.rho_kd (S.c2s (ids.getD i 0)))
          n_elts result j hj huniq
  · cases elt_ids with
    | none =>
        exact foldl_update_range_eval (fun i => if dense_output then i else i)
          (fun i => (S.saturated_moisture (S.c2s i) + tc.rho_kd (S.c2s i)) *
            tc.reaction_rate (S.c2s i))
          n_elts result j hj huniq
    | some ids =>
        exact foldl_update_range_eval
          (fun i => if dense_output then i else ids.getD i 0)
          (fun i => (S.saturated_moisture (S.c2s (ids.getD i 0)) +
            tc.rho_kd (S.c2s (ids.getD i 0))) *
            tc.reaction_rate (S.c2s (ids.getD i 0)))
          n_elts result j hj huniq
  · cases elt_ids with
    | none =>
        have hrw : bulk_out_id none dense_output j = j := by
          simp [bulk_out_id, bulk_cell_id]
        rw [show get_reaction_pty4std_tracer S n_elts none dense_output tc
            result =
          (List.range n_elts).foldl (fun res i =>
            Function.update res i
              ((tc.l_saturation i + tc.rho_kd (S.c2s i)) *
                tc.reaction_rate (S.c2s i))) result from rfl, hrw]
        exact foldl_update_range_eval (fun i => i)
          (fun i => (tc.l_saturation i + tc.rho_kd (S.c2s i)) *
            tc.reaction_rate (S.c2s i))
          n_elts result j hj (fun i _ he => he)
    | some ids =>
        exact foldl_update_range_eval
          (fun i => if dense_output then i else ids.getD i 0)
          (fun i => (tc.l_saturation (ids.getD i 0) +
            tc.rho_kd (S.c2s (ids.getD i 0))) *
            tc.reaction_rate (S.c2s (ids.getD i 0)))
          n_elts result j hj huniq

/-- C5 witness: one-cell selection list `[5]`, dense output; the bulk time
coefficient written at slot 0 equals the cell-wise value at cell 5. -/
theorem C5_witness :
    get_time_pty4std_sat_tracer ⟨fun c => c, fun s => (s : ℚ)⟩ 1 (some [5])
        true ⟨fun _ => 2, fun _ => 3, fun _ => 4⟩ (fun _ => 0)
        (bulk_out_id (some [5]) true 0) =
      get_time_pty4std_sat_tracer_cw ⟨fun c => c, fun s => (s : ℚ)⟩
        (bulk_cell_id (some [5]) 0) ⟨fun _ => 2, fun _ => 3, fun _ => 4⟩ :=
  (C5_bulk_matches_cellwise ⟨fun c => c, fun s => (s : ℚ)⟩
    ⟨fun _ => 2, fun _ => 3, fun _ => 4⟩ 1 (some [5]) true (fun _ => 0) 0
    (by norm_num) (fun i hi _ => by omega)).1

/-- C9: precondition violations are fatal, not recoverable:
`cs_gwf_set_main_tracer_param` with a NULL tracer errors out with the
empty-tracer diagnostic and never returns normally; an unrecognized space
scheme in `_add_precipitation` or in `cs_gwf_tracer_integrate` errors out
with the invalid-space-scheme diagnostic; and `cs_gwf_tracer_integrate`
with an unset moisture field errors out rather than returning a value. -/
theorem C9_fatal_preconditions :
    (∀ soils soil_name wmd alpha_l alpha_t distrib_coef reaction_rate,
      cs_gwf_set_main_tracer_param soils none soil_name wmd alpha_l alpha_t
        distrib_coef reaction_rate = Except.error GwfError.emptyTracer) ∧
    (∀ scheme : SpaceScheme, scheme ≠ SpaceScheme.CDOVB →
      scheme ≠ SpaceScheme.CDOVCB →
      ∀ n_cells c2v soils,
        add_precipitation scheme n_cells c2v soils =
          Except.error GwfError.invalidSpaceScheme) ∧
    (∀ scheme : SpaceScheme, scheme ≠ SpaceScheme.CDOVB →
      scheme ≠ SpaceScheme.CDOVCB →
      ∀ moisture_val rho_kd c2s c2v dcell_vol cell_vol v_vals c_vals zone,
        cs_gwf_tracer_integrate scheme (some moisture_val) rho_kd c2s c2v
          dcell_vol cell_vol v_vals c_vals zone =
          Except.error GwfError.invalidSpaceScheme) ∧
    (∀ scheme rho_kd c2s c2v dcell_vol cell_vol v_vals c_vals zone,
        cs_gwf_tracer_integrate scheme none rho_kd c2s c2v
          dcell_vol cell_vol v_vals c_vals zone =
          Except.error GwfError.moistureNotDefined) := by
  refine ⟨?_, ?_, ?_, ?_⟩
  · intro soils soil_name wmd alpha_l alpha_t distrib_coef reaction_rate
    rfl
  · intro scheme h1 h2 n_cells c2v soils
    cases scheme with
    | CDOVB => exact absurd rfl h1
    | CDOVCB => exact absurd rfl h2
    | CDOEB => rfl
    | CDOFB => rfl
    | HHO_P0 => rfl
    | HHO_P1 => rfl
    | HHO_P2 => rfl
  · intro scheme h1 h2 moisture_val rho_kd c2s c2v dcell_vol cell_vol
      v_vals c_vals zone
    cases scheme with
    | CDOVB => exact absurd rfl h1
    | CDOVCB => exact absurd rfl h2
    | CDOEB => rfl
    | CDOFB => rfl
    | HHO_P0 => rfl
    | HHO_P1 => rfl
    | HHO_P2 => rfl
  · intro scheme rho_kd c2s c2v dcell_vol cell_vol v_vals c_vals zone
    rfl

/-- C9 witness: the face-based scheme CDOFB is not handled by the
precipitation setup and yields the invalid-space-scheme error. -/
theorem C9_witness :
    add_precipitation SpaceScheme.CDOFB 0 (fun _ => []) [] =
      Except.error GwfError.invalidSpaceScheme :=
  C9_fatal_preconditions.2.1 SpaceScheme.CDOFB (by decide) (by decide)
    0 (fun _ => []) []

/-! ### Lemmas for the dispersion tensor -/

lemma cs_math_zero_threshold_pos : 0 < cs_math_zero_threshold := by
  rw [cs_math_zero_threshold]
  positivity

lemma diff_tensor_cell_diag (wmd alpha_l alpha_t theta : ℝ) (v : Fin 3 → ℝ)
    (r : ℕ → ℝ) (i : Fin 3) :
    diff_tensor_cell wmd alpha_l alpha_t theta v r (3 * i.val + i.val) =
      wmd * theta + alpha_t * darcy_norm v +
        dispersion_delta alpha_l alpha_t v * (v i * v i) := by
  fin_cases i <;>
    simp [diff_tensor_cell, darcy_norm, dispersion_delta,
      Function.update_apply]

lemma diff_tensor_cell_offdiag (wmd alpha_l alpha_t theta : ℝ)
    (v : Fin 3 → ℝ) (r : ℕ → ℝ) (i j : Fin 3) (hij : i ≠ j) :
    diff_tensor_cell wmd alpha_l alpha_t theta v r (3 * i.val + j.val) =
      dispersion_delta alpha_l alpha_t v * v i * v j := by
  fin_cases i <;> fin_cases j <;>
    first
      | exact absurd rfl hij
      | (simp [diff_tensor_cell, darcy_norm, dispersion_delta,
          Function.update_apply] <;> ring)

lemma diff_cell_foldl_ne (g1 : ℕ → (ℕ → ℝ) → ℕ → ℝ) (c : ℕ) :
    ∀ (cells : List ℕ) (vals : ℕ → ℕ → ℝ), c ∉ cells →
      (cells.foldl (fun vals c_id =>
        Function.update vals c_id (g1 c_id (vals c_id))) vals) c = vals c := by
  intro cells
  induction cells with
  | nil => intro vals _; rfl
  | cons c' cells ih =>
      intro vals hc
      rw [List.foldl_cons, ih _ (fun h => hc (List.mem_cons_of_mem _ h))]
      exact Function.update_noteq
        (fun h => hc (by rw [h]; exact List.mem_cons_self _ _)) _ _

lemma diff_cell_foldl_mem (g1 : ℕ → (ℕ → ℝ) → ℕ → ℝ) (c n : ℕ) (t : ℝ)
    (hg : ∀ r, g1 c r n = t) :
    ∀ (cells : List ℕ) (vals : ℕ → ℕ → ℝ), c ∈ cells →
      (cells.foldl (fun vals c_id =>
        Function.update vals c_id (g1 c_id (vals c_id))) vals) c n = t := by
  intro cells
  induction cells with
  | nil => intro vals h; simp at h
  | cons c' cells ih =>
      intro vals hc
      rw [List.foldl_cons]
      by_cases hmem : c ∈ cells
      · exact ih _ hmem
      · have hcc : c = c' := by
          rcases List.mem_cons.mp hc with h | h
          · exact h
          · exact absurd h hmem
        subst hcc
        rw [diff_cell_foldl_ne g1 c cells _ hmem, Function.update_same]
        exact hg _

lemma diff_soils_foldl_value (g : DiffSoil → ℕ → (ℕ → ℝ) → ℕ → ℝ)
    (c n : ℕ) (t : ℝ) :
    ∀ (soils : List DiffSoil) (vals : ℕ → ℕ → ℝ),
      (∀ s ∈ soils, c ∈ s.zone → ∀ r, g s c r n = t) →
      ((∃ s ∈ soils, c ∈ s.zone) ∨ vals c n = t) →
      (soils.foldl (fun vals soil =>
        soil.zone.foldl (fun vals c_id =>
          Function.update vals c_id (g soil c_id (vals c_id))) vals) vals)
        c n = t := by
  intro soils
  induction soils with
  | nil =>
      intro vals _ h
      rcases h with ⟨s, hs, _⟩ | h
      · simp at hs
      · exact h
  | cons s soils ih =>
      intro vals hall hex
      rw [List.foldl_cons]
      by_cases hz : c ∈ s.zone
      · refine ih _ (fun s' hs' => hall s' (List.mem_cons_of_mem _ hs'))
          (Or.inr ?_)
        exact diff_cell_foldl_mem (g s) c n t
          (hall s (List.mem_cons_self _ _) hz) s.zone vals hz
      · refine ih _ (fun s' hs' => hall s' (List.mem_cons_of_mem _ hs')) ?_
        rcases hex with ⟨s', hs', hcz⟩ | hv
        · rcases List.mem_cons.mp hs' with rfl | hs2
          · exact absurd hcz hz
          · exact Or.inl ⟨s', hs2, hcz⟩
        · right
          rw [diff_cell_foldl_ne (g s) c s.zone vals hz]
          exact hv

lemma update_diff_pty_diag_eq (soils : List DiffSoil) (theta : ℕ → ℝ)
    (velocity : ℕ → Fin 3 → ℝ) (values : ℕ → ℕ → ℝ) (soil : DiffSoil)
    (c : ℕ) (hmem : soil ∈ soils) (hc : c ∈ soil.zone)
    (huniq : ∀ s' ∈ soils, c ∈ s'.zone → s' = soil) (i : Fin 3) :
    update_diff_pty soils theta velocity values c (3 * i.val + i.val) =
      soil.wmd * theta c + soil.alpha_t * darcy_norm (velocity c) +
        dispersion_delta soil.alpha_l soil.alpha_t (velocity c) *
          (velocity c i * velocity c i) := by
  refine diff_soils_foldl_value
    (fun s c_id r => diff_tensor_cell s.wmd s.alpha_l s.alpha_t (theta c_id)
      (velocity c_id) r) c (3 * i.val + i.val) _ soils values ?_
    (Or.inl ⟨soil, hmem, hc⟩)
  intro s' hs' hcz r
  have hss : s' = soil := huniq s' hs' hcz
  subst hss
  exact diff_tensor_cell_diag _ _ _ _ _ r i

lemma update_diff_pty_offdiag_eq (soils : List DiffSoil) (theta : ℕ → ℝ)
    (velocity : ℕ → Fin 3 → ℝ) (values : ℕ → ℕ → ℝ) (soil : DiffSoil)
    (c : ℕ) (hmem : soil ∈ soils) (hc : c ∈ soil.zone)
    (huniq : ∀ s' ∈ soils, c ∈ s'.zone → s' = soil) (i j : Fin 3)
    (hij : i ≠ j) :
    update_diff_pty soils theta velocity values c (3 * i.val + j.val) =
      dispersion_delta soil.alpha_l soil.alpha_t (velocity c) *
        velocity c i * velocity c j := by
  refine diff_soils_foldl_value
    (fun s c_id r => diff_tensor_cell s.wmd s.alpha_l s.alpha_t (theta c_id)
      (velocity c_id) r) c (3 * i.val + j.val) _ soils values ?_
    (Or.inl ⟨soil, hmem, hc⟩)
  intro s' hs' hcz r
  have hss : s' = soil := huniq s' hs' hcz
  subst hss
  exact diff_tensor_cell_offdiag _ _ _ _ _ r i j hij

lemma update_sat_diff_pty_diag_eq (soils : List DiffSoil)
    (velocity : ℕ → Fin 3 → ℝ) (values : ℕ → ℕ → ℝ) (soil : DiffSoil)
    (c : ℕ) (hmem : soil ∈ soils) (hc : c ∈ soil.zone)
    (huniq : ∀ s' ∈ soils, c ∈ s'.zone → s' = soil) (i : Fin 3) :
    update_sat_diff_pty soils velocity values c (3 * i.val + i.val) =
      soil.wmd * soil.theta_s + soil.alpha_t * darcy_norm (velocity c) +
        dispersion_delta soil.alpha_l soil.alpha_t (velocity c) *
          (velocity c i * velocity c i) := by
  refine diff_soils_foldl_value
    (fun s c_id r => diff_tensor_cell s.wmd s.alpha_l s.alpha_t s.theta_s
      (velocity c_id) r) c (3 * i.val + i.val) _ soils values ?_
    (Or.inl ⟨soil, hmem, hc⟩)
  intro s' hs' hcz r
  have hss : s' = soil := huniq s' hs' hcz
  subst hss
  exact diff_tensor_cell_diag _ _ _ _ _ r i

lemma update_sat_diff_pty_offdiag_eq (soils : List DiffSoil)
    (velocity : ℕ → Fin 3 → ℝ) (values : ℕ → ℕ → ℝ) (soil : DiffSoil)
    (c : ℕ) (hmem : soil ∈ soils) (hc : c ∈ soil.zone)
    (huniq : ∀ s' ∈ soils, c ∈ s'.zone → s' = soil) (i j : Fin 3)
    (hij : i ≠ j) :
    update_sat_diff_pty soils velocity values c (3 * i.val + j.val) =
      dispersion_delta soil.alpha_l soil.alpha_t (velocity c) *
        velocity c i * velocity c j := by
  refine diff_soils_foldl_value
    (fun s c_id r => diff_tensor_cell s.wmd s.alpha_l s.alpha_t s.theta_s
      (velocity c_id) r) c (3 * i.val + j.val) _ soils values ?_
    (Or.inl ⟨soil, hmem, hc⟩)
  intro s' hs' hcz r
  have hss : s' = soil := huniq s' hs' hcz
  subst hss
  exact diff_tensor_cell_offdiag _ _ _ _ _ r i j hij

/-- C2: for every cell and every soil (the soil owning the cell, soils
partitioning the mesh), the 3x3 tensor recomputed by the diffusion-tensor
updaters from the cell's Darcy velocity `v` has diagonal entries
`wmd*theta + alpha_t*|v| + delta*v_i*v_i` and off-diagonal entries
`delta*v_i*v_j`, where `delta = (alpha_l - alpha_t)/|v|` when `|v|` exceeds
the numerical zero threshold and `delta = 0` otherwise, `theta` being the
per-cell saturation field in the general variant (`_update_diff_pty`) and
the constant saturated moisture in the saturated variant
(`_update_sat_diff_pty`); and when `|v| = 0` the diagonal reduces exactly
to `wmd*theta` and all off-diagonals are exactly `0`. -/
theorem C2_dispersion_tensor_formula (soils : List DiffSoil) (theta : ℕ → ℝ)
    (velocity : ℕ → Fin 3 → ℝ) (values : ℕ → ℕ → ℝ) (soil : DiffSoil)
    (c : ℕ) (hmem : soil ∈ soils) (hc : c ∈ soil.zone)
    (huniq : ∀ s' ∈ soils, c ∈ s'.zone → s' = soil) :
    (∀ i : Fin 3,
      update_diff_pty soils theta velocity values c (3 * i.val + i.val) =
        soil.wmd * theta c + soil.alpha_t * darcy_norm (velocity c) +
          dispersion_delta soil.alpha_l soil.alpha_t (velocity c) *
            (velocity c i * velocity c i) ∧
      update_sat_diff_pty soils velocity values c (3 * i.val + i.val) =
        soil.wmd * soil.theta_s + soil.alpha_t * darcy_norm (velocity c) +
          dispersion_delta soil.alpha_l soil.alpha_t (velocity c) *
            (velocity c i * velocity c i)) ∧
    (∀ i j : Fin 3, i ≠ j →
      update_diff_pty soils theta velocity values c (3 * i.val + j.val) =
        dispersion_delta soil.alpha_l soil.alpha_t (velocity c) *
          velocity c i * velocity c j ∧
      update_sat_diff_pty soils velocity values c (3 * i.val + j.val) =
        dispersion_delta soil.alpha_l soil.alpha_t (velocity c) *
          velocity c i * velocity c j) ∧
    ((∀ k, velocity c k = 0) →
      (∀ i : Fin 3,
        update_diff_pty soils theta velocity values c (3 * i.val + i.val) =
          soil.wmd * theta c ∧
        update_sat_diff_pty soils velocity values c (3 * i.val + i.val) =
          soil.wmd * soil.theta_s) ∧
      (∀ i j : Fin 3, i ≠ j →
        update_diff_pty soils theta velocity values c (3 * i.val + j.val)
          = 0 ∧
        update_sat_diff_pty soils velocity values c (3 * i.val + j.val)
          = 0)) := by
  refine ⟨?_, ?_, ?_⟩
  · intro i
    exact ⟨update_diff_pty_diag_eq soils theta velocity values soil c hmem
        hc huniq i,
      update_sat_diff_pty_diag_eq soils velocity values soil c hmem
        hc huniq i⟩
  · intro i j hij
    exact ⟨update_diff_pty_offdiag_eq soils theta velocity values soil c hmem
        hc huniq i j hij,
      update_sat_diff_pty_offdiag_eq soils velocity values soil c hmem
        hc huniq i j hij⟩
  · intro hv0
    have hnorm : darcy_norm (velocity c) = 0 := by simp [darcy_norm, hv0]
    have hdelta : dispersion_delta soil.alpha_l soil.alpha_t (velocity c)
        = 0 := by
      rw [dispersion_delta, hnorm]
      rw [if_neg (not_lt.mpr cs_math_zero_threshold_pos.le)]
    constructor
    · intro i
      constructor
      · rw [update_diff_pty_diag_eq soils theta velocity values soil c hmem
          hc huniq i, hnorm, hdelta]
        ring
      · rw [update_sat_diff_pty_diag_eq soils velocity values soil c hmem
          hc huniq i, hnorm, hdelta]
        ring
    · intro i j hij
      constructor
      · rw [update_diff_pty_offdiag_eq soils theta velocity values soil c
          hmem hc huniq i j hij, hdelta]
        ring
      · rw [update_sat_diff_pty_offdiag_eq soils velocity values soil c
          hmem hc huniq i j hij, hdelta]
        ring

/-- C2 witness: one soil owning cell 0, zero Darcy velocity; the (0,0)
diagonal entry of both updaters. -/
theorem C2_witness :
    update_diff_pty [⟨[0], 1, 2, 3, 4⟩] (fun _ => 5) (fun _ _ => 0)
        (fun _ _ => 0) 0 (3 * (0 : Fin 3).val + (0 : Fin 3).val) =
      (1 : ℝ) * 5 + 3 * darcy_norm (fun _ => 0) +
        dispersion_delta 2 3 (fun _ => 0) * (0 * 0) ∧
    update_sat_diff_pty [⟨[0], 1, 2, 3, 4⟩] (fun _ _ => 0)
        (fun _ _ => 0) 0 (3 * (0 : Fin 3).val + (0 : Fin 3).val) =
      (1 : ℝ) * 4 + 3 * darcy_norm (fun _ => 0) +
        dispersion_delta 2 3 (fun _ => 0) * (0 * 0) :=
  (C2_dispersion_tensor_formula [⟨[0], 1, 2, 3, 4⟩] (fun _ => 5)
    (fun _ _ => 0) (fun _ _ => 0) ⟨[0], 1, 2, 3, 4⟩ 0
    (List.mem_singleton.mpr rfl) (List.mem_singleton.mpr rfl)
    (fun s' hs' _ => List.eq_of_mem_singleton hs')).1 0

/-- C8: the tensor written by either diffusion updater is exactly
symmetric, `T[i][j] = T[j][i]` (the off-diagonal value is computed once and
mirrored by construction, so in this exact-arithmetic model the two entries
are equal as values, not merely approximately). -/
theorem C8_dispersion_tensor_symmetric (soils : List DiffSoil)
    (theta : ℕ → ℝ) (velocity : ℕ → Fin 3 → ℝ) (values : ℕ → ℕ → ℝ)
    (soil : DiffSoil) (c : ℕ) (hmem : soil ∈ soils) (hc : c ∈ soil.zone)
    (huniq : ∀ s' ∈ soils, c ∈ s'.zone → s' = soil) :
    ∀ i j : Fin 3,
      update_diff_pty soils theta velocity values c (3 * i.val + j.val) =
        update_diff_pty soils theta velocity values c (3 * j.val + i.val) ∧
      update_sat_diff_pty soils velocity values c (3 * i.val + j.val) =
        update_sat_diff_pty soils velocity values c (3 * j.val + i.val) := by
  intro i j
  rcases eq_or_ne i j with rfl | hij
  · exact ⟨rfl, rfl⟩
  · constructor
    · rw [update_diff_pty_offdiag_eq soils theta velocity values soil c hmem
        hc huniq i j hij,
        update_diff_pty_offdiag_eq soils theta velocity values soil c hmem
        hc huniq j i hij.symm]
      ring
    · rw [update_sat_diff_pty_offdiag_eq soils velocity values soil c hmem
        hc huniq i j hij,
        update_sat_diff_pty_offdiag_eq soils velocity values soil c hmem
        hc huniq j i hij.symm]
      ring

/-- C8 witness: symmetry of the (0,1)/(1,0) pair on a concrete one-soil
configuration. -/
theorem C8_witness :
    update_diff_pty [⟨[0], 1, 2, 3, 4⟩] (fun _ => 5) (fun _ _ => 0)
        (fun _ _ => 0) 0 (3 * (0 : Fin 3).val + (1 : Fin 3).val) =
      update_diff_pty [⟨[0], 1, 2, 3, 4⟩] (fun _ => 5) (fun _ _ => 0)
        (fun _ _ => 0) 0 (3 * (1 : Fin 3).val + (0 : Fin 3).val) ∧
    update_sat_diff_pty [⟨[0], 1, 2, 3, 4⟩] (fun _ _ => 0)
        (fun _ _ => 0) 0 (3 * (0 : Fin 3).val + (1 : Fin 3).val) =
      update_sat_diff_pty [⟨[0], 1, 2, 3, 4⟩] (fun _ _ => 0)
        (fun _ _ => 0) 0 (3 * (1 : Fin 3).val + (0 : Fin 3).val) :=
  C8_dispersion_tensor_symmetric [⟨[0], 1, 2, 3, 4⟩] (fun _ => 5)
    (fun _ _ => 0) (fun _ _ => 0) ⟨[0], 1, 2, 3, 4⟩ 0
    (List.mem_singleton.mpr rfl) (List.mem_singleton.mpr rfl)
    (fun s' hs' _ => List.eq_of_mem_singleton hs') 0 1
